import Mathlib

/-!
Verification of the frame/resource lifecycle core of a Vulkan rendering
engine: the device allocator (staged host-to-device buffer transfer), the
per-frame-slot descriptor set/pool cache, frame construction, move and
teardown, and the GPU-visible material parameter struct layout.

The C++ sources are shallowly embedded: Vulkan/VMA handles become `Nat`
identifiers, the allocator's buffer population becomes an explicit state,
fallible native calls are driven by an environment of per-call-site success
flags where `VK_ASSERT` failure aborts the whole call (`Option`), and the
caches of `Frame` become association lists mirroring the `std::map` nesting.
-/

namespace DeviceAllocator

/-- Bit constant from vulkan_core.h. -/
def VK_BUFFER_USAGE_TRANSFER_SRC_BIT : Nat := 1

/-- Bit constant from vulkan_core.h. -/
def VK_BUFFER_USAGE_TRANSFER_DST_BIT : Nat := 2

/-- Bit constant from vulkan_core.h. -/
def VK_MEMORY_PROPERTY_DEVICE_LOCAL_BIT : Nat := 1

/-- Bit constant from vulkan_core.h. -/
def VK_MEMORY_PROPERTY_HOST_VISIBLE_BIT : Nat := 2

/-- Bit constant from vulkan_core.h. -/
def VK_MEMORY_PROPERTY_HOST_COHERENT_BIT : Nat := 4

/-- Bit constant from vk_mem_alloc.h. -/
def VMA_ALLOCATION_CREATE_HOST_ACCESS_SEQUENTIAL_WRITE_BIT : Nat := 1024

/-- A `(VkBuffer, VmaAllocation)` pair together with the allocation's
metadata and its byte contents. `contents = none` models memory whose
contents are undefined (freshly allocated, never written). -/
structure BufferObj where
  id : Nat
  size : Nat
  usage : Nat
  properties : Nat
  allocFlags : Nat
  contents : Option (List Nat)
deriving DecidableEq, Repr

/-- The allocator's view of device memory: a fresh-id counter and the live
buffers, most recently created first. -/
structure AllocState where
  nextId : Nat
  buffers : List BufferObj
deriving DecidableEq, Repr

/-- Per-call-site success flags for the native calls made during one
`allocateDeviceLocalBufferAndTransfer` invocation: the two
`vmaCreateBuffer`s, `vmaCopyMemoryToAllocation`, and the five fallible
calls inside `copyBuffer` (`vkAllocateCommandBuffers`,
`vkBeginCommandBuffer`, `vkEndCommandBuffer`, `vkQueueSubmit`,
`vkQueueWaitIdle`). -/
structure Env where
  createDstOk : Bool
  createStagingOk : Bool
  copyToAllocOk : Bool
  cmdAllocOk : Bool
  cmdBeginOk : Bool
  cmdEndOk : Bool
  submitOk : Bool
  waitOk : Bool
deriving DecidableEq, Repr

/-- The environment in which every native call succeeds. -/
def envAllOk : Env := ⟨true, true, true, true, true, true, true, true⟩

/-- `DeviceAllocator::allocateBuffer` (DeviceAllocator.cpp lines 114-143):
builds a `VkBufferCreateInfo` whose usage is
`VK_BUFFER_USAGE_TRANSFER_DST_BIT | usage` and creates the buffer via
`vmaCreateBuffer` under `VK_ASSERT` (failure aborts, modelled as `none`).
Fresh memory contents are undefined (`none`). -/
def allocateBuffer (ok : Bool) (st : AllocState)
    (size usage properties allocFlags : Nat) : Option (BufferObj × AllocState) :=
  if ok then
    let buffer : BufferObj :=
      { id := st.nextId, size := size,
        usage := VK_BUFFER_USAGE_TRANSFER_DST_BIT ||| usage,
        properties := properties, allocFlags := allocFlags, contents := none }
    some (buffer, { nextId := st.nextId + 1, buffers := buffer :: st.buffers })
  else none

/-- First buffer in the list with the given id. -/
def findBuf : List BufferObj → Nat → Option BufferObj
  | [], _ => none
  | b :: t, i => if b.id = i then some b else findBuf t i

/-- Overwrite the contents of every buffer with the given id. -/
def updateBufContents : List BufferObj → Nat → Option (List Nat) → List BufferObj
  | [], _, _ => []
  | b :: t, i, c =>
    (if b.id = i then { b with contents := c } else b) :: updateBufContents t i c

/-- Remove every buffer with the given id. -/
def removeBuf : List BufferObj → Nat → List BufferObj
  | [], _ => []
  | b :: t, i => if b.id = i then removeBuf t i else b :: removeBuf t i

/-- Contents of the live buffer with the given id (`none` if no such live
buffer; `some none` if live but with undefined contents). -/
def lookupContents (st : AllocState) (i : Nat) : Option (Option (List Nat)) :=
  (findBuf st.buffers i).map (fun b => b.contents)

/-- Whether a buffer with this id is live. -/
def isLive (st : AllocState) (i : Nat) : Bool :=
  (findBuf st.buffers i).isSome

/-- Overwrite the contents of the buffer with the given id. -/
def writeContents (st : AllocState) (i : Nat) (c : Option (List Nat)) : AllocState :=
  { st with buffers := updateBufContents st.buffers i c }

/-- `vmaCopyMemoryToAllocation` as invoked at DeviceAllocator.cpp lines
50-56: copies `size` bytes of `data` into the allocation. Its `VkResult` is
discarded at the call site, so on failure execution continues with the
destination allocation left unwritten. -/
def vmaCopyMemoryToAllocation (ok : Bool) (st : AllocState)
    (data : List Nat) (dst : Nat) (size : Nat) : AllocState :=
  if ok then writeContents st dst (some (data.take size)) else st

/-- `vmaDestroyBuffer`: removes the buffer and its backing allocation. -/
def vmaDestroyBuffer (st : AllocState) (i : Nat) : AllocState :=
  { st with buffers := removeBuf st.buffers i }

/-- `DeviceAllocator::copyBuffer` (DeviceAllocator.cpp lines 145-179):
one-shot command buffer, a single `VkBufferCopy` covering `size` bytes at
offset 0, submit, wait idle. Each fallible call sits under `VK_ASSERT`
(failure aborts). On success the first `size` bytes of the source buffer
have been copied into the destination buffer. -/
def copyBuffer (env : Env) (st : AllocState) (src dst : Nat) (size : Nat) :
    Option AllocState :=
  if env.cmdAllocOk then
    if env.cmdBeginOk then
      if env.cmdEndOk then
        if env.submitOk then
          if env.waitOk then
            some (writeContents st dst
              (((lookupContents st src).getD none).map (fun l => l.take size)))
          else none
        else none
      else none
    else none
  else none

/-- `DeviceAllocator::allocateDeviceLocalBufferAndTransfer`
(DeviceAllocator.cpp lines 33-62): allocate the device-local destination
with `usage | VK_BUFFER_USAGE_TRANSFER_DST_BIT`, allocate a host-visible
host-coherent staging buffer, `vmaCopyMemoryToAllocation` the payload into
staging (result discarded), blocking `copyBuffer` staging to destination,
destroy the staging buffer, return the destination pair. -/
def allocateDeviceLocalBufferAndTransfer (env : Env) (st : AllocState)
    (data : List Nat) (size usage : Nat) : Option (BufferObj × AllocState) :=
  match allocateBuffer env.createDstOk st size
      (usage ||| VK_BUFFER_USAGE_TRANSFER_DST_BIT)
      VK_MEMORY_PROPERTY_DEVICE_LOCAL_BIT 0 with
  | none => none
  | some (destinationBuf, st1) =>
    match allocateBuffer env.createStagingOk st1 size
        VK_BUFFER_USAGE_TRANSFER_SRC_BIT
        (VK_MEMORY_PROPERTY_HOST_VISIBLE_BIT ||| VK_MEMORY_PROPERTY_HOST_COHERENT_BIT)
        VMA_ALLOCATION_CREATE_HOST_ACCESS_SEQUENTIAL_WRITE_BIT with
    | none => none
    | some (stagingBuf, st2) =>
      let st3 := vmaCopyMemoryToAllocation env.copyToAllocOk st2 data stagingBuf.id size
      match copyBuffer env st3 stagingBuf.id destinationBuf.id size with
      | none => none
      | some st4 => some (destinationBuf, vmaDestroyBuffer st4 stagingBuf.id)

/-- `findBuf` after `updateBufContents` at the same id. -/
lemma findBuf_update_self (l : List BufferObj) (i : Nat) (c : Option (List Nat)) :
    findBuf (updateBufContents l i c) i
      = (findBuf l i).map (fun b => { b with contents := c }) := by
  induction l with
  | nil => rfl
  | cons b t ih =>
    by_cases h : b.id = i
    · simp [updateBufContents, findBuf, h]
    · simp [updateBufContents, findBuf, h, ih]

/-- `findBuf` after `updateBufContents` at a different id. -/
lemma findBuf_update_ne (l : List BufferObj) (i j : Nat) (c : Option (List Nat))
    (h : ¬ i = j) :
    findBuf (updateBufContents l i c) j = findBuf l j := by
  have hji : ¬ j = i := fun he => h he.symm
  induction l with
  | nil => rfl
  | cons b t ih =>
    by_cases hb : b.id = i
    · have hbj : ¬ b.id = j := fun he => h (hb ▸ he)
      simp [updateBufContents, findBuf, hb, hbj, h, ih]
    · by_cases hbj : b.id = j
      · simp [updateBufContents, findBuf, hb, hbj, hji]
      · simp [updateBufContents, findBuf, hb, hbj, ih]

/-- `findBuf` after `removeBuf` at a different id. -/
lemma findBuf_remove_ne (l : List BufferObj) (i j : Nat) (h : ¬ i = j) :
    findBuf (removeBuf l i) j = findBuf l j := by
  have hji : ¬ j = i := fun he => h he.symm
  induction l with
  | nil => rfl
  | cons b t ih =>
    by_cases hb : b.id = i
    · have hbj : ¬ b.id = j := fun he => h (hb ▸ he)
      simp [removeBuf, findBuf, hb, hbj, h, ih]
    · by_cases hbj : b.id = j
      · simp [removeBuf, findBuf, hb, hbj, hji]
      · simp [removeBuf, findBuf, hb, hbj, ih]

/-- `findBuf` after `removeBuf` at the removed id fails. -/
lemma findBuf_remove_self (l : List BufferObj) (i : Nat) :
    findBuf (removeBuf l i) i = none := by
  induction l with
  | nil => rfl
  | cons b t ih =>
    by_cases hb : b.id = i
    · simp [removeBuf, hb, ih]
    · simp [removeBuf, findBuf, hb, ih]

/-- Looking up the overwritten buffer returns the new contents. -/
lemma lookupContents_writeContents_self (st : AllocState) (i : Nat)
    (c : Option (List Nat)) (h : isLive st i = true) :
    lookupContents (writeContents st i c) i = some c := by
  unfold isLive at h
  show (findBuf (updateBufContents st.buffers i c) i).map (fun b => b.contents) = some c
  rw [findBuf_update_self]
  cases hf : findBuf st.buffers i with
  | none => rw [hf] at h; simp at h
  | some b => rfl

/-- Overwriting buffer `i` does not change the lookup of a different id. -/
lemma lookupContents_writeContents_ne (st : AllocState) (i j : Nat)
    (c : Option (List Nat)) (h : ¬ i = j) :
    lookupContents (writeContents st i c) j = lookupContents st j := by
  show (findBuf (updateBufContents st.buffers i c) j).map (fun b => b.contents)
    = (findBuf st.buffers j).map (fun b => b.contents)
  rw [findBuf_update_ne _ _ _ _ h]

/-- Overwriting contents does not change liveness. -/
lemma isLive_writeContents (st : AllocState) (i j : Nat) (c : Option (List Nat)) :
    isLive (writeContents st i c) j = isLive st j := by
  show (findBuf (updateBufContents st.buffers i c) j).isSome
    = (findBuf st.buffers j).isSome
  by_cases h : i = j
  · subst h
    rw [findBuf_update_self]
    cases findBuf st.buffers i <;> rfl
  · rw [findBuf_update_ne _ _ _ _ h]

/-- Destroying buffer `i` does not change the lookup of a different id. -/
lemma lookupContents_destroy_ne (st : AllocState) (i j : Nat) (h : ¬ i = j) :
    lookupContents (vmaDestroyBuffer st i) j = lookupContents st j := by
  show (findBuf (removeBuf st.buffers i) j).map (fun b => b.contents)
    = (findBuf st.buffers j).map (fun b => b.contents)
  rw [findBuf_remove_ne _ _ _ h]

/-- The destroyed buffer is no longer live. -/
lemma isLive_destroy_self (st : AllocState) (i : Nat) :
    isLive (vmaDestroyBuffer st i) i = false := by
  show (findBuf (removeBuf st.buffers i) i).isSome = false
  rw [findBuf_remove_self]
  rfl

/-- The destination buffer record created by
`allocateDeviceLocalBufferAndTransfer` for fresh id `n`. -/
def dstBufOf (n size usage : Nat) : BufferObj :=
  { id := n, size := size,
    usage := VK_BUFFER_USAGE_TRANSFER_DST_BIT ||| (usage ||| VK_BUFFER_USAGE_TRANSFER_DST_BIT),
    properties := VK_MEMORY_PROPERTY_DEVICE_LOCAL_BIT, allocFlags := 0, contents := none }

/-- The staging buffer record created by
`allocateDeviceLocalBufferAndTransfer` for fresh id `n + 1`. -/
def stagingBufOf (n size : Nat) : BufferObj :=
  { id := n + 1, size := size,
    usage := VK_BUFFER_USAGE_TRANSFER_DST_BIT ||| VK_BUFFER_USAGE_TRANSFER_SRC_BIT,
    properties := VK_MEMORY_PROPERTY_HOST_VISIBLE_BIT ||| VK_MEMORY_PROPERTY_HOST_COHERENT_BIT,
    allocFlags := VMA_ALLOCATION_CREATE_HOST_ACCESS_SEQUENTIAL_WRITE_BIT, contents := none }

/-- Any lor with `VK_BUFFER_USAGE_TRANSFER_DST_BIT` on the left has the
transfer-destination bit set. -/
lemma lor_dst_bit_set (x : Nat) :
    (VK_BUFFER_USAGE_TRANSFER_DST_BIT ||| x) &&& VK_BUFFER_USAGE_TRANSFER_DST_BIT ≠ 0 := by
  have h2 : VK_BUFFER_USAGE_TRANSFER_DST_BIT = 2 ^ 1 := rfl
  have ht : (VK_BUFFER_USAGE_TRANSFER_DST_BIT ||| x).testBit 1 = true := by
    rw [Nat.testBit_lor]
    have : Nat.testBit VK_BUFFER_USAGE_TRANSFER_DST_BIT 1 = true := by decide
    rw [this, Bool.true_or]
  rw [h2] at ht ⊢
  rw [Nat.and_two_pow, ht]
  simp

/--
Claim C1: for every payload `data` of size N and usage flags,
`allocateDeviceLocalBufferAndTransfer(data, N, usage)` (all native calls
succeeding) returns a device-local destination buffer whose contents in the
resulting state equal `data`, with transfer-destination usage added; the
staging buffer (id `st.nextId + 1`) has been destroyed before returning;
the statement covers N = 0, for which the call does not fail.
-/
theorem allocateDeviceLocalBufferAndTransfer_contents (st : AllocState)
    (data : List Nat) (size usage : Nat) (hdata : data.length = size) :
    ∃ buf st2,
      allocateDeviceLocalBufferAndTransfer envAllOk st data size usage = some (buf, st2)
      ∧ lookupContents st2 buf.id = some (some data)
      ∧ buf.properties = VK_MEMORY_PROPERTY_DEVICE_LOCAL_BIT
      ∧ buf.usage &&& VK_BUFFER_USAGE_TRANSFER_DST_BIT ≠ 0
      ∧ buf.size = size
      ∧ isLive st2 (st.nextId + 1) = false := by
  have hne : ¬ (st.nextId + 1 = st.nextId) := by omega
  have hrun : allocateDeviceLocalBufferAndTransfer envAllOk st data size usage
      = some (dstBufOf st.nextId size usage,
          vmaDestroyBuffer
            (writeContents
              (writeContents
                ⟨st.nextId + 2,
                  stagingBufOf st.nextId size :: dstBufOf st.nextId size usage :: st.buffers⟩
                (st.nextId + 1) (some (data.take size)))
              st.nextId
              (((lookupContents
                  (writeContents
                    ⟨st.nextId + 2,
                      stagingBufOf st.nextId size :: dstBufOf st.nextId size usage :: st.buffers⟩
                    (st.nextId + 1) (some (data.take size)))
                  (st.nextId + 1)).getD none).map (fun l => l.take size)))
            (st.nextId + 1)) := rfl
  have hlive2 : isLive
      (⟨st.nextId + 2,
        stagingBufOf st.nextId size :: dstBufOf st.nextId size usage :: st.buffers⟩ : AllocState)
      (st.nextId + 1) = true := by
    show (findBuf
        (stagingBufOf st.nextId size :: dstBufOf st.nextId size usage :: st.buffers)
        (st.nextId + 1)).isSome = true
    rw [findBuf]
    simp [stagingBufOf]
  have hstg : lookupContents
      (writeContents
        ⟨st.nextId + 2,
          stagingBufOf st.nextId size :: dstBufOf st.nextId size usage :: st.buffers⟩
        (st.nextId + 1) (some (data.take size)))
      (st.nextId + 1) = some (some (data.take size)) :=
    lookupContents_writeContents_self _ _ _ hlive2
  refine ⟨dstBufOf st.nextId size usage, _, hrun, ?_, rfl, lor_dst_bit_set _, rfl, ?_⟩
  · show lookupContents _ (dstBufOf st.nextId size usage).id = some (some data)
    have hid : (dstBufOf st.nextId size usage).id = st.nextId := rfl
    rw [hid, lookupContents_destroy_ne _ _ _ hne, hstg]
    simp only [Option.getD_some, Option.map_some']
    have hlivedst : isLive
        (writeContents
          ⟨st.nextId + 2,
            stagingBufOf st.nextId size :: dstBufOf st.nextId size usage :: st.buffers⟩
          (st.nextId + 1) (some (data.take size)))
        st.nextId = true := by
      rw [isLive_writeContents]
      show (findBuf
          (stagingBufOf st.nextId size :: dstBufOf st.nextId size usage :: st.buffers)
          st.nextId).isSome = true
      rw [findBuf, if_neg (by simp [stagingBufOf]), findBuf, if_pos (by simp [dstBufOf])]
      rfl
    rw [lookupContents_writeContents_self _ _ _ hlivedst, List.take_take]
    simp only [min_self]
    rw [← hdata, List.take_length]
  · show isLive (vmaDestroyBuffer _ (st.nextId + 1)) (st.nextId + 1) = false
    exact isLive_destroy_self _ _

/-- Witness for C1 at a concrete payload. -/
theorem allocateDeviceLocalBufferAndTransfer_contents_witness :
    ∃ buf st2,
      allocateDeviceLocalBufferAndTransfer envAllOk ⟨0, []⟩ [7, 9] 2 0 = some (buf, st2)
      ∧ lookupContents st2 buf.id = some (some [7, 9])
      ∧ buf.properties = VK_MEMORY_PROPERTY_DEVICE_LOCAL_BIT
      ∧ buf.usage &&& VK_BUFFER_USAGE_TRANSFER_DST_BIT ≠ 0
      ∧ buf.size = 2
      ∧ isLive st2 ((⟨0, []⟩ : AllocState).nextId + 1) = false :=
  allocateDeviceLocalBufferAndTransfer_contents ⟨0, []⟩ [7, 9] 2 0 (by decide)

/-- The environment in which only the host-to-staging copy fails. -/
def envCopyFail : Env := ⟨true, true, false, true, true, true, true, true⟩

/--
Counterexample to claim C4 as stated: the `VkResult` of
`vmaCopyMemoryToAllocation` is discarded at DeviceAllocator.cpp lines
50-56, so when that native call fails, `allocateDeviceLocalBufferAndTransfer`
still returns normally (`isSome`), and the destination buffer's contents
remain undefined rather than equal to the payload.
-/
theorem copyToAllocation_failure_returns_normally :
    envCopyFail.copyToAllocOk = false
    ∧ (allocateDeviceLocalBufferAndTransfer envCopyFail ⟨0, []⟩ [7] 1 0).isSome = true
    ∧ (allocateDeviceLocalBufferAndTransfer envCopyFail ⟨0, []⟩ [7] 1 0).map
        (fun r => lookupContents r.2 r.1.id) = some (some none) := by
  refine ⟨rfl, rfl, by decide⟩

/--
Claim C4 (amended): every native call whose result is checked by
`VK_ASSERT` — the two buffer allocations and the command-buffer
allocate/begin/end/submit/wait-idle calls of `copyBuffer` — either succeeds
or aborts the call: on any normal return all of those calls succeeded. (The
one exception, forced by the counterexample, is `vmaCopyMemoryToAllocation`,
whose result is discarded.)
-/
theorem checked_native_calls_fatal (env : Env) (st : AllocState)
    (data : List Nat) (size usage : Nat) (r : BufferObj × AllocState)
    (h : allocateDeviceLocalBufferAndTransfer env st data size usage = some r) :
    env.createDstOk = true ∧ env.createStagingOk = true ∧ env.cmdAllocOk = true
    ∧ env.cmdBeginOk = true ∧ env.cmdEndOk = true ∧ env.submitOk = true
    ∧ env.waitOk = true := by
  obtain ⟨c1, c2, c3, c4, c5, c6, c7, c8⟩ := env
  cases c1 <;> cases c2 <;> cases c4 <;> cases c5 <;> cases c6 <;> cases c7 <;> cases c8 <;>
    simp_all [allocateDeviceLocalBufferAndTransfer, allocateBuffer, copyBuffer,
      vmaCopyMemoryToAllocation]

/-- Witness for the amended C4 at a concrete successful run. -/
theorem checked_native_calls_fatal_witness :
    envAllOk.createDstOk = true ∧ envAllOk.createStagingOk = true
    ∧ envAllOk.cmdAllocOk = true ∧ envAllOk.cmdBeginOk = true
    ∧ envAllOk.cmdEndOk = true ∧ envAllOk.submitOk = true
    ∧ envAllOk.waitOk = true :=
  checked_native_calls_fatal envAllOk ⟨0, []⟩ [5] 1 0
    (⟨0, 1, 2, 1, 0, none⟩, ⟨2, [⟨0, 1, 2, 1, 0, some [5]⟩]⟩) (by decide)

/--
Claim C7: for every size, usage flags, memory properties and allocation
flags, `allocateBuffer` creates the buffer with usage equal to the
requested usage OR-ed with the transfer-destination bit, so every buffer it
returns has the transfer-destination usage bit set even when the caller did
not request it.
-/
theorem allocateBuffer_usage_transfer_dst (ok : Bool) (st : AllocState)
    (size usage properties allocFlags : Nat) (buf : BufferObj) (st2 : AllocState)
    (h : allocateBuffer ok st size usage properties allocFlags = some (buf, st2)) :
    buf.usage = usage ||| VK_BUFFER_USAGE_TRANSFER_DST_BIT
    ∧ buf.usage &&& VK_BUFFER_USAGE_TRANSFER_DST_BIT ≠ 0 := by
  cases ok with
  | false => simp [allocateBuffer] at h
  | true =>
    simp only [allocateBuffer, if_true, Option.some.injEq, Prod.mk.injEq] at h
    obtain ⟨hbuf, _⟩ := h
    constructor
    · rw [← hbuf, Nat.lor_comm]
    · rw [← hbuf]
      exact lor_dst_bit_set usage

/-- Witness for C7 at a concrete allocation that did not request
transfer-destination usage. -/
theorem allocateBuffer_usage_transfer_dst_witness :
    (⟨0, 4, 2, 1, 0, none⟩ : BufferObj).usage = 0 ||| VK_BUFFER_USAGE_TRANSFER_DST_BIT
    ∧ (⟨0, 4, 2, 1, 0, none⟩ : BufferObj).usage &&& VK_BUFFER_USAGE_TRANSFER_DST_BIT ≠ 0 :=
  allocateBuffer_usage_transfer_dst true ⟨0, []⟩ 4 0 1 0 ⟨0, 4, 2, 1, 0, none⟩
    ⟨1, [⟨0, 4, 2, 1, 0, none⟩]⟩ (by decide)

end DeviceAllocator

namespace Frame

/-- `VkDescriptorBufferInfo` (vulkan_core.h): buffer handle, offset, range. -/
structure VkDescriptorBufferInfo where
  buffer : Nat
  offset : Nat
  range : Nat
deriving DecidableEq, Repr

/-- `VkDescriptorImageInfo` (vulkan_core.h): sampler, image view, layout. -/
structure VkDescriptorImageInfo where
  sampler : Nat
  imageView : Nat
  imageLayout : Nat
deriving DecidableEq, Repr

/-- Modelled from the spec: `hash_value` / `hash_combine` of VkHash.h are not
under src/; the spec treats the combined hash as the value identity of the
structural content (layout hash extended with every buffer and image binding
description in key order), so the hash is modelled as this injective
structural key. The descriptor-set layout itself is likewise identified with
its structural hash, a `Nat`. -/
structure SetKey where
  layoutHash : Nat
  bufferInfos : List VkDescriptorBufferInfo
  imageInfos : List VkDescriptorImageInfo
deriving DecidableEq, Repr

/-- Association-list lookup, first match wins (as `std::map::find`). -/
def alookup {κ β : Type} [DecidableEq κ] : List (κ × β) → κ → Option β
  | [], _ => none
  | (k, v) :: t, a => if a = k then some v else alookup t a

/-- The caches owned by one `Frame`: the fresh-object counter models the
identity of `std::unique_ptr`-owned `DescriptorPool` / `DescriptorSet`
instances; the two maps mirror `descriptorPools` and `descriptorSets`,
keyed by concurrency-slot index, then by hash. -/
structure FrameCache where
  nextObj : Nat
  descriptorPools : List (Nat × List (Nat × Nat))
  descriptorSets : List (Nat × List (SetKey × Nat))
deriving DecidableEq, Repr

/-- `descriptorPools[concurrencyIndex]` (`operator[]` default-constructs). -/
def poolMapOf (fr : FrameCache) (ci : Nat) : List (Nat × Nat) :=
  (alookup fr.descriptorPools ci).getD []

/-- `descriptorSets[concurrencyIndex]` (`operator[]` default-constructs). -/
def setMapOf (fr : FrameCache) (ci : Nat) : List (SetKey × Nat) :=
  (alookup fr.descriptorSets ci).getD []

/-- Object ids of the pools cached under one slot. -/
def poolIds (fr : FrameCache) (ci : Nat) : List Nat :=
  (poolMapOf fr ci).map Prod.snd

/-- Object ids of the sets cached under one slot. -/
def setIds (fr : FrameCache) (ci : Nat) : List Nat :=
  (setMapOf fr ci).map Prod.snd

/-- `Frame::getDescriptorPool` (Frame.cpp lines 93-108): hash the layout;
if the slot's pool map has no entry for that hash, create a fresh
`DescriptorPool` and cache it, else return the cached one. -/
def getDescriptorPool (fr : FrameCache) (concurrencyIndex : Nat) (layout : Nat) :
    Nat × FrameCache :=
  let hash := layout
  let descriptorPoolMap := poolMapOf fr concurrencyIndex
  match alookup descriptorPoolMap hash with
  | some p => (p, fr)
  | none =>
    (fr.nextObj,
      { fr with
          nextObj := fr.nextObj + 1
          descriptorPools :=
            (concurrencyIndex, (hash, fr.nextObj) :: descriptorPoolMap)
              :: fr.descriptorPools })

/-- The combined hash of `Frame::getDescriptorSet` (Frame.cpp lines
117-123): `hash_value(layout)` extended with each buffer binding's value and
then each image binding's value, iterated in key order; the binding indices
(map keys) themselves are not combined into the hash. -/
def setKeyOf (layout : Nat) (bufferBindingInfos : List (Nat × VkDescriptorBufferInfo))
    (imageBindingInfos : List (Nat × VkDescriptorImageInfo)) : SetKey :=
  ⟨layout, bufferBindingInfos.map Prod.snd, imageBindingInfos.map Prod.snd⟩

/-- `Frame::getDescriptorSet` (Frame.cpp lines 110-137): look up the
combined hash in the slot's set map; on a miss, obtain the slot's pool via
`getDescriptorPool` and cache a fresh `DescriptorSet`. -/
def getDescriptorSet (fr : FrameCache) (concurrencyIndex : Nat) (layout : Nat)
    (bufferBindingInfos : List (Nat × VkDescriptorBufferInfo))
    (imageBindingInfos : List (Nat × VkDescriptorImageInfo)) : Nat × FrameCache :=
  let hash := setKeyOf layout bufferBindingInfos imageBindingInfos
  let descriptorSetMap := setMapOf fr concurrencyIndex
  match alookup descriptorSetMap hash with
  | some s => (s, fr)
  | none =>
    let fr1 := (getDescriptorPool fr concurrencyIndex layout).2
    (fr1.nextObj,
      { fr1 with
          nextObj := fr1.nextObj + 1
          descriptorSets :=
            (concurrencyIndex, (hash, fr1.nextObj) :: setMapOf fr1 concurrencyIndex)
              :: fr1.descriptorSets })

/-- Invariant of reachable `FrameCache` states: cached object ids are below
the fresh counter, per-slot ids are duplicate-free, and no object id is
cached under two different slots. -/
structure Inv (fr : FrameCache) : Prop where
  poolLt : ∀ j v, v ∈ poolIds fr j → v < fr.nextObj
  setLt : ∀ j v, v ∈ setIds fr j → v < fr.nextObj
  poolNodup : ∀ j, (poolIds fr j).Nodup
  setNodup : ∀ j, (setIds fr j).Nodup
  poolDisj : ∀ i j v, ¬ i = j → v ∈ poolIds fr i → ¬ v ∈ poolIds fr j
  setDisj : ∀ i j v, ¬ i = j → v ∈ setIds fr i → ¬ v ∈ setIds fr j

lemma alookup_cons_self {κ β : Type} [DecidableEq κ] (l : List (κ × β)) (a : κ) (b : β) :
    alookup ((a, b) :: l) a = some b := by
  simp [alookup]

lemma alookup_cons_ne {κ β : Type} [DecidableEq κ] (l : List (κ × β)) (a a2 : κ) (b : β)
    (h : ¬ a2 = a) : alookup ((a, b) :: l) a2 = alookup l a2 := by
  simp [alookup, h]

lemma alookup_mem {κ β : Type} [DecidableEq κ] {l : List (κ × β)} {a : κ} {b : β}
    (h : alookup l a = some b) : (a, b) ∈ l := by
  induction l with
  | nil => simp [alookup] at h
  | cons p t ih =>
    by_cases ha : a = p.1
    · rw [show p = (p.1, p.2) from rfl, ← ha] at h ⊢
      rw [alookup_cons_self] at h
      obtain rfl := Option.some.injEq .. ▸ h
      exact List.mem_cons_self _ _
    · rw [show p = (p.1, p.2) from rfl] at h ⊢
      rw [alookup_cons_ne _ _ _ _ ha] at h
      exact List.mem_cons_of_mem _ (ih h)

/-- In a list whose second components are duplicate-free, equal values force
equal keys. -/
lemma snd_nodup_key_eq {κ β : Type} {l : List (κ × β)} {k1 k2 : κ} {v : β}
    (hnd : (l.map Prod.snd).Nodup) (h1 : (k1, v) ∈ l) (h2 : (k2, v) ∈ l) : k1 = k2 := by
  induction l with
  | nil => simp at h1
  | cons p t ih =>
    rw [List.map_cons, List.nodup_cons] at hnd
    rcases List.mem_cons.mp h1 with he1 | ht1 <;> rcases List.mem_cons.mp h2 with he2 | ht2
    · rw [← he2] at he1
      exact congrArg Prod.fst he1
    · exfalso
      apply hnd.1
      have hv : v = p.2 := congrArg Prod.snd he1
      exact hv ▸ List.mem_map_of_mem Prod.snd ht2
    · exfalso
      apply hnd.1
      have hv : v = p.2 := congrArg Prod.snd he2
      exact hv ▸ List.mem_map_of_mem Prod.snd ht1
    · exact ih hnd.2 ht1 ht2

/-- The state produced by the miss branch of `getDescriptorPool`. -/
def insertPool (fr : FrameCache) (ci layout : Nat) : FrameCache :=
  { fr with
      nextObj := fr.nextObj + 1
      descriptorPools :=
        (ci, (layout, fr.nextObj) :: poolMapOf fr ci) :: fr.descriptorPools }

/-- The state produced by the miss branch of `getDescriptorSet` (relative to
the state left by its `getDescriptorPool` call). -/
def insertSet (fr : FrameCache) (ci : Nat) (k : SetKey) : FrameCache :=
  { fr with
      nextObj := fr.nextObj + 1
      descriptorSets :=
        (ci, (k, fr.nextObj) :: setMapOf fr ci) :: fr.descriptorSets }

lemma getDescriptorPool_cached (fr : FrameCache) (ci layout p : Nat)
    (h : alookup (poolMapOf fr ci) layout = some p) :
    getDescriptorPool fr ci layout = (p, fr) := by
  simp [getDescriptorPool, h]

lemma getDescriptorPool_miss (fr : FrameCache) (ci layout : Nat)
    (h : alookup (poolMapOf fr ci) layout = none) :
    getDescriptorPool fr ci layout = (fr.nextObj, insertPool fr ci layout) := by
  simp [getDescriptorPool, h, insertPool]

lemma getDescriptorSet_cached (fr : FrameCache) (ci layout : Nat)
    (b : List (Nat × VkDescriptorBufferInfo)) (im : List (Nat × VkDescriptorImageInfo))
    (s : Nat) (h : alookup (setMapOf fr ci) (setKeyOf layout b im) = some s) :
    getDescriptorSet fr ci layout b im = (s, fr) := by
  simp [getDescriptorSet, h]

lemma getDescriptorSet_miss (fr : FrameCache) (ci layout : Nat)
    (b : List (Nat × VkDescriptorBufferInfo)) (im : List (Nat × VkDescriptorImageInfo))
    (h : alookup (setMapOf fr ci) (setKeyOf layout b im) = none) :
    getDescriptorSet fr ci layout b im
      = (((getDescriptorPool fr ci layout).2).nextObj,
          insertSet ((getDescriptorPool fr ci layout).2) ci (setKeyOf layout b im)) := by
  simp [getDescriptorSet, h, insertSet]

lemma poolMapOf_insertPool (fr : FrameCache) (ci layout j : Nat) :
    poolMapOf (insertPool fr ci layout) j
      = if j = ci then (layout, fr.nextObj) :: poolMapOf fr ci else poolMapOf fr j := by
  by_cases h : j = ci
  · subst h
    simp only [insertPool, poolMapOf, alookup_cons_self, if_pos rfl]
    rfl
  · simp only [insertPool, poolMapOf, if_neg h]
    rw [alookup_cons_ne _ _ _ _ h]

lemma setMapOf_insertPool (fr : FrameCache) (ci layout j : Nat) :
    setMapOf (insertPool fr ci layout) j = setMapOf fr j := rfl

lemma nextObj_insertPool (fr : FrameCache) (ci layout : Nat) :
    (insertPool fr ci layout).nextObj = fr.nextObj + 1 := rfl

lemma setMapOf_insertSet (fr : FrameCache) (ci : Nat) (k : SetKey) (j : Nat) :
    setMapOf (insertSet fr ci k) j
      = if j = ci then (k, fr.nextObj) :: setMapOf fr ci else setMapOf fr j := by
  by_cases h : j = ci
  · subst h
    simp only [insertSet, setMapOf, alookup_cons_self, if_pos rfl]
    rfl
  · simp only [insertSet, setMapOf, if_neg h]
    rw [alookup_cons_ne _ _ _ _ h]

lemma poolMapOf_insertSet (fr : FrameCache) (ci : Nat) (k : SetKey) (j : Nat) :
    poolMapOf (insertSet fr ci k) j = poolMapOf fr j := rfl

lemma nextObj_insertSet (fr : FrameCache) (ci : Nat) (k : SetKey) :
    (insertSet fr ci k).nextObj = fr.nextObj + 1 := rfl

lemma poolIds_insertPool (fr : FrameCache) (ci layout j : Nat) :
    poolIds (insertPool fr ci layout) j
      = if j = ci then fr.nextObj :: poolIds fr ci else poolIds fr j := by
  simp only [poolIds, poolMapOf_insertPool, apply_ite (List.map Prod.snd), List.map_cons]

lemma setIds_insertPool (fr : FrameCache) (ci layout j : Nat) :
    setIds (insertPool fr ci layout) j = setIds fr j := rfl

lemma setIds_insertSet (fr : FrameCache) (ci : Nat) (k : SetKey) (j : Nat) :
    setIds (insertSet fr ci k) j
      = if j = ci then fr.nextObj :: setIds fr ci else setIds fr j := by
  simp only [setIds, setMapOf_insertSet, apply_ite (List.map Prod.snd), List.map_cons]

lemma poolIds_insertSet (fr : FrameCache) (ci : Nat) (k : SetKey) (j : Nat) :
    poolIds (insertSet fr ci k) j = poolIds fr j := rfl

lemma getDescriptorPool_sets (fr : FrameCache) (ci layout : Nat) :
    ((getDescriptorPool fr ci layout).2).descriptorSets = fr.descriptorSets := by
  cases h : alookup (poolMapOf fr ci) layout with
  | some p => rw [getDescriptorPool_cached fr ci layout p h]
  | none => rw [getDescriptorPool_miss fr ci layout h]; rfl

lemma getDescriptorPool_setMapOf (fr : FrameCache) (ci layout j : Nat) :
    setMapOf ((getDescriptorPool fr ci layout).2) j = setMapOf fr j := by
  unfold setMapOf
  rw [getDescriptorPool_sets]

lemma getDescriptorPool_nextObj_ge (fr : FrameCache) (ci layout : Nat) :
    fr.nextObj ≤ ((getDescriptorPool fr ci layout).2).nextObj := by
  cases h : alookup (poolMapOf fr ci) layout with
  | some p =>
    rw [getDescriptorPool_cached fr ci layout p h]
  | none =>
    rw [getDescriptorPool_miss fr ci layout h, nextObj_insertPool]
    exact Nat.le_succ _

lemma getDescriptorPool_poolMapOf_ne (fr : FrameCache) (ci layout j : Nat)
    (h : ¬ j = ci) :
    poolMapOf ((getDescriptorPool fr ci layout).2) j = poolMapOf fr j := by
  cases hl : alookup (poolMapOf fr ci) layout with
  | some p => rw [getDescriptorPool_cached fr ci layout p hl]
  | none =>
    rw [getDescriptorPool_miss fr ci layout hl, poolMapOf_insertPool, if_neg h]

/-- Inserting a fresh pool id preserves the cache invariant. -/
lemma insertPool_inv (fr : FrameCache) (ci layout : Nat) (hinv : Inv fr) :
    Inv (insertPool fr ci layout) := by
  constructor
  · intro j v hv
    rw [poolIds_insertPool] at hv
    rw [nextObj_insertPool]
    by_cases h : j = ci
    · rw [if_pos h] at hv
      rcases List.mem_cons.mp hv with rfl | hv2
      · exact Nat.lt_succ_self _
      · exact Nat.lt_succ_of_lt (hinv.poolLt ci v hv2)
    · rw [if_neg h] at hv
      exact Nat.lt_succ_of_lt (hinv.poolLt j v hv)
  · intro j v hv
    rw [setIds_insertPool] at hv
    rw [nextObj_insertPool]
    exact Nat.lt_succ_of_lt (hinv.setLt j v hv)
  · intro j
    rw [poolIds_insertPool]
    by_cases h : j = ci
    · rw [if_pos h]
      exact List.nodup_cons.mpr
        ⟨fun hmem => Nat.lt_irrefl _ (hinv.poolLt ci _ hmem), hinv.poolNodup ci⟩
    · rw [if_neg h]
      exact hinv.poolNodup j
  · intro j
    rw [setIds_insertPool]
    exact hinv.setNodup j
  · intro i j v hne hvi
    rw [poolIds_insertPool] at hvi
    rw [poolIds_insertPool]
    by_cases hi : i = ci
    · rw [if_pos hi] at hvi
      have hj : ¬ j = ci := fun hj => hne (hi.trans hj.symm)
      rw [if_neg hj]
      rcases List.mem_cons.mp hvi with rfl | hv2
      · exact fun hmem => Nat.lt_irrefl _ (hinv.poolLt j _ hmem)
      · exact hinv.poolDisj ci j v (fun he => hne (hi.trans he)) hv2
    · rw [if_neg hi] at hvi
      by_cases hj : j = ci
      · rw [if_pos hj]
        intro hmem
        rcases List.mem_cons.mp hmem with he | hv2
        · exact Nat.lt_irrefl _ (he ▸ hinv.poolLt i v hvi)
        · exact hinv.poolDisj i ci v (fun he => hne (he.trans hj.symm)) hvi hv2
      · rw [if_neg hj]
        exact hinv.poolDisj i j v hne hvi
  · intro i j v hne hvi
    rw [setIds_insertPool] at hvi
    rw [setIds_insertPool]
    exact hinv.setDisj i j v hne hvi

/-- Inserting a fresh set id preserves the cache invariant. -/
lemma insertSet_inv (fr : FrameCache) (ci : Nat) (k : SetKey) (hinv : Inv fr) :
    Inv (insertSet fr ci k) := by
  constructor
  · intro j v hv
    rw [poolIds_insertSet] at hv
    rw [nextObj_insertSet]
    exact Nat.lt_succ_of_lt (hinv.poolLt j v hv)
  · intro j v hv
    rw [setIds_insertSet] at hv
    rw [nextObj_insertSet]
    by_cases h : j = ci
    · rw [if_pos h] at hv
      rcases List.mem_cons.mp hv with rfl | hv2
      · exact Nat.lt_succ_self _
      · exact Nat.lt_succ_of_lt (hinv.setLt ci v hv2)
    · rw [if_neg h] at hv
      exact Nat.lt_succ_of_lt (hinv.setLt j v hv)
  · intro j
    rw [poolIds_insertSet]
    exact hinv.poolNodup j
  · intro j
    rw [setIds_insertSet]
    by_cases h : j = ci
    · rw [if_pos h]
      exact List.nodup_cons.mpr
        ⟨fun hmem => Nat.lt_irrefl _ (hinv.setLt ci _ hmem), hinv.setNodup ci⟩
    · rw [if_neg h]
      exact hinv.setNodup j
  · intro i j v hne hvi
    rw [poolIds_insertSet] at hvi
    rw [poolIds_insertSet]
    exact hinv.poolDisj i j v hne hvi
  · intro i j v hne hvi
    rw [setIds_insertSet] at hvi
    rw [setIds_insertSet]
    by_cases hi : i = ci
    · rw [if_pos hi] at hvi
      have hj : ¬ j = ci := fun hj => hne (hi.trans hj.symm)
      rw [if_neg hj]
      rcases List.mem_cons.mp hvi with rfl | hv2
      · exact fun hmem => Nat.lt_irrefl _ (hinv.setLt j _ hmem)
      · exact hinv.setDisj ci j v (fun he => hne (hi.trans he)) hv2
    · rw [if_neg hi] at hvi
      by_cases hj : j = ci
      · rw [if_pos hj]
        intro hmem
        rcases List.mem_cons.mp hmem with he | hv2
        · exact Nat.lt_irrefl _ (he ▸ hinv.setLt i v hvi)
        · exact hinv.setDisj i ci v (fun he => hne (he.trans hj.symm)) hvi hv2
      · rw [if_neg hj]
        exact hinv.setDisj i j v hne hvi

lemma getDescriptorPool_inv (fr : FrameCache) (ci layout : Nat) (hinv : Inv fr) :
    Inv ((getDescriptorPool fr ci layout).2) := by
  cases h : alookup (poolMapOf fr ci) layout with
  | some p => rw [getDescriptorPool_cached fr ci layout p h]; exact hinv
  | none => rw [getDescriptorPool_miss fr ci layout h]; exact insertPool_inv fr ci layout hinv

lemma getDescriptorSet_inv (fr : FrameCache) (ci layout : Nat)
    (b : List (Nat × VkDescriptorBufferInfo)) (im : List (Nat × VkDescriptorImageInfo))
    (hinv : Inv fr) : Inv ((getDescriptorSet fr ci layout b im).2) := by
  cases h : alookup (setMapOf fr ci) (setKeyOf layout b im) with
  | some s => rw [getDescriptorSet_cached fr ci layout b im s h]; exact hinv
  | none =>
    rw [getDescriptorSet_miss fr ci layout b im h]
    exact insertSet_inv _ ci _ (getDescriptorPool_inv fr ci layout hinv)

/-- After a `getDescriptorSet` call, its key is cached and maps to the
returned instance. -/
lemma getDescriptorSet_lookup_self (fr : FrameCache) (ci layout : Nat)
    (b : List (Nat × VkDescriptorBufferInfo)) (im : List (Nat × VkDescriptorImageInfo)) :
    alookup (setMapOf ((getDescriptorSet fr ci layout b im).2) ci) (setKeyOf layout b im)
      = some ((getDescriptorSet fr ci layout b im).1) := by
  cases h : alookup (setMapOf fr ci) (setKeyOf layout b im) with
  | some s => rw [getDescriptorSet_cached fr ci layout b im s h]; exact h
  | none =>
    rw [getDescriptorSet_miss fr ci layout b im h, setMapOf_insertSet, if_pos rfl]
    exact alookup_cons_self _ _ _

/-- A `getDescriptorSet` call never evicts or rebinds an existing cache
entry (of any slot and key). -/
lemma getDescriptorSet_preserves_cached (fr : FrameCache) (ci layout : Nat)
    (b : List (Nat × VkDescriptorBufferInfo)) (im : List (Nat × VkDescriptorImageInfo))
    (c0 : Nat) (k0 : SetKey) (s0 : Nat)
    (h0 : alookup (setMapOf fr c0) k0 = some s0) :
    alookup (setMapOf ((getDescriptorSet fr ci layout b im).2) c0) k0 = some s0 := by
  cases h : alookup (setMapOf fr ci) (setKeyOf layout b im) with
  | some s => rw [getDescriptorSet_cached fr ci layout b im s h]; exact h0
  | none =>
    rw [getDescriptorSet_miss fr ci layout b im h, setMapOf_insertSet]
    by_cases hc : c0 = ci
    · subst hc
      have hk : ¬ k0 = setKeyOf layout b im := by
        intro he
        rw [he] at h0
        rw [h0] at h
        cases h
      rw [if_pos rfl, alookup_cons_ne _ _ _ _ hk, getDescriptorPool_setMapOf]
      exact h0
    · rw [if_neg hc, getDescriptorPool_setMapOf]
      exact h0

/-- The instance returned by `getDescriptorSet` is at least the pre-state
fresh counter when it is freshly created, and in general the call never
returns an id below a cached id of a different key (see
`getDescriptorSet_ne_of_other_key`). -/
lemma getDescriptorSet_nextObj_ge (fr : FrameCache) (ci layout : Nat)
    (b : List (Nat × VkDescriptorBufferInfo)) (im : List (Nat × VkDescriptorImageInfo)) :
    fr.nextObj ≤ ((getDescriptorSet fr ci layout b im).2).nextObj := by
  cases h : alookup (setMapOf fr ci) (setKeyOf layout b im) with
  | some s => rw [getDescriptorSet_cached fr ci layout b im s h]
  | none =>
    rw [getDescriptorSet_miss fr ci layout b im h, nextObj_insertSet]
    exact Nat.le_trans (getDescriptorPool_nextObj_ge fr ci layout) (Nat.le_succ _)

/-- From an invariant state in which key `k1` is cached with instance `s1`,
requesting a different key in the same slot returns a different instance. -/
lemma getDescriptorSet_ne_of_other_key (fr : FrameCache) (ci layout : Nat)
    (b : List (Nat × VkDescriptorBufferInfo)) (im : List (Nat × VkDescriptorImageInfo))
    (k1 : SetKey) (s1 : Nat) (hinv : Inv fr)
    (h1 : alookup (setMapOf fr ci) k1 = some s1)
    (hk : ¬ setKeyOf layout b im = k1) :
    ¬ (getDescriptorSet fr ci layout b im).1 = s1 := by
  cases h : alookup (setMapOf fr ci) (setKeyOf layout b im) with
  | some s =>
    rw [getDescriptorSet_cached fr ci layout b im s h]
    intro he
    apply hk
    exact snd_nodup_key_eq (hinv.setNodup ci) (alookup_mem (he ▸ h)) (alookup_mem h1)
  | none =>
    rw [getDescriptorSet_miss fr ci layout b im h]
    intro he
    have hlt : s1 < fr.nextObj :=
      hinv.setLt ci s1 (List.mem_map_of_mem Prod.snd (alookup_mem h1))
    have hge : fr.nextObj ≤ ((getDescriptorPool fr ci layout).2).nextObj :=
      getDescriptorPool_nextObj_ge fr ci layout
    rw [← he] at hlt
    exact Nat.lt_irrefl _ (Nat.lt_of_lt_of_le hlt hge)

/-- `l[n]?` of a `set` at the same in-bounds index. -/
lemma getElem?_set_self_of_lt {α : Type} (l : List α) (n : Nat) (a : α)
    (h : n < l.length) : (l.set n a)[n]? = some a := by
  induction l generalizing n with
  | nil => simp at h
  | cons x t ih =>
    cases n with
    | zero => simp
    | succ m =>
      simp only [List.set_cons_succ, List.getElem?_cons_succ]
      exact ih m (Nat.lt_of_succ_lt_succ h)

/-- `l[n]? = some a` forces `n` in bounds. -/
lemma getElem?_some_lt {α : Type} {l : List α} {n : Nat} {a : α}
    (h : l[n]? = some a) : n < l.length := by
  induction l generalizing n with
  | nil => simp at h
  | cons x t ih =>
    cases n with
    | zero => simp
    | succ m =>
      simp only [List.getElem?_cons_succ] at h
      exact Nat.succ_lt_succ (ih h)

/-- Replacing one binding's value by a different value changes the list of
binding values. -/
lemma map_snd_set_ne {β : Type} (l : List (Nat × β)) (n idx2 : Nat) (info info2 : β)
    (hb : l[n]? = some (idx2, info)) (hne : ¬ info2 = info) :
    ¬ ((l.set n (idx2, info2)).map Prod.snd = l.map Prod.snd) := by
  intro he
  have hn : n < l.length := getElem?_some_lt hb
  have h1 : ((l.set n (idx2, info2)).map Prod.snd)[n]? = some info2 := by
    rw [List.getElem?_map, getElem?_set_self_of_lt _ _ _ hn]
    rfl
  have h2 : (l.map Prod.snd)[n]? = some info := by
    rw [List.getElem?_map, hb]
    rfl
  rw [he, h2] at h1
  exact hne (Option.some.injEq .. ▸ h1).symm

/-- One recorded `getDescriptorSet` request. -/
structure SetCall where
  slot : Nat
  layout : Nat
  bufferBindingInfos : List (Nat × VkDescriptorBufferInfo)
  imageBindingInfos : List (Nat × VkDescriptorImageInfo)
deriving DecidableEq, Repr

/-- Execute a sequence of `getDescriptorSet` requests. -/
def runCalls : FrameCache → List SetCall → FrameCache
  | fr, [] => fr
  | fr, c :: cs =>
    runCalls (getDescriptorSet fr c.slot c.layout c.bufferBindingInfos
      c.imageBindingInfos).2 cs

lemma runCalls_inv (fr : FrameCache) (cs : List SetCall) (hinv : Inv fr) :
    Inv (runCalls fr cs) := by
  induction cs generalizing fr with
  | nil => exact hinv
  | cons c cs ih => exact ih _ (getDescriptorSet_inv _ _ _ _ _ hinv)

lemma runCalls_preserves_cached (fr : FrameCache) (cs : List SetCall)
    (c0 : Nat) (k0 : SetKey) (s0 : Nat)
    (h0 : alookup (setMapOf fr c0) k0 = some s0) :
    alookup (setMapOf (runCalls fr cs) c0) k0 = some s0 := by
  induction cs generalizing fr with
  | nil => exact h0
  | cons c cs ih => exact ih _ (getDescriptorSet_preserves_cached _ _ _ _ _ _ _ _ h0)

/--
Claim C2: within one frame slot, requesting the same
(layout, bufferBindings, imageBindings) combination again — even after any
further sequence of `getDescriptorSet` calls — returns the identical cached
descriptor-set instance, while requesting a combination that differs in a
single buffer binding's buffer handle, or in a single image binding's
image-view handle, returns a distinct instance.
-/
theorem getDescriptorSet_cache_identity (fr : FrameCache) (ci layout : Nat)
    (b : List (Nat × VkDescriptorBufferInfo)) (im : List (Nat × VkDescriptorImageInfo))
    (cs : List SetCall) (n idx : Nat) (info : VkDescriptorBufferInfo) (newBuf : Nat)
    (m jdx : Nat) (jinfo : VkDescriptorImageInfo) (newView : Nat)
    (hinv : Inv fr)
    (hb : b[n]? = some (idx, info)) (hbne : ¬ newBuf = info.buffer)
    (him : im[m]? = some (jdx, jinfo)) (himne : ¬ newView = jinfo.imageView) :
    (getDescriptorSet (runCalls (getDescriptorSet fr ci layout b im).2 cs)
        ci layout b im).1
      = (getDescriptorSet fr ci layout b im).1
    ∧ ¬ (getDescriptorSet (runCalls (getDescriptorSet fr ci layout b im).2 cs)
          ci layout (b.set n (idx, { info with buffer := newBuf })) im).1
        = (getDescriptorSet fr ci layout b im).1
    ∧ ¬ (getDescriptorSet (runCalls (getDescriptorSet fr ci layout b im).2 cs)
          ci layout b (im.set m (jdx, { jinfo with imageView := newView }))).1
        = (getDescriptorSet fr ci layout b im).1 := by
  have hcache := getDescriptorSet_lookup_self fr ci layout b im
  have hrun := runCalls_preserves_cached _ cs ci _ _ hcache
  have hinv2 : Inv (runCalls (getDescriptorSet fr ci layout b im).2 cs) :=
    runCalls_inv _ cs (getDescriptorSet_inv fr ci layout b im hinv)
  refine ⟨?_, ?_, ?_⟩
  · rw [getDescriptorSet_cached _ ci layout b im _ hrun]
  · apply getDescriptorSet_ne_of_other_key _ ci layout _ im _ _ hinv2 hrun
    intro he
    exact map_snd_set_ne b n idx info { info with buffer := newBuf } hb
      (fun hinfo => hbne (congrArg VkDescriptorBufferInfo.buffer hinfo))
      (congrArg SetKey.bufferInfos he)
  · apply getDescriptorSet_ne_of_other_key _ ci layout b _ _ _ hinv2 hrun
    intro he
    exact map_snd_set_ne im m jdx jinfo { jinfo with imageView := newView } him
      (fun hinfo => himne (congrArg VkDescriptorImageInfo.imageView hinfo))
      (congrArg SetKey.imageInfos he)

/-- The cache state of a freshly constructed `Frame`: both maps empty. -/
def initFrameCache : FrameCache := ⟨0, [], []⟩

lemma Inv_init : Inv initFrameCache := by
  refine ⟨?_, ?_, ?_, ?_, ?_, ?_⟩
  · intro j v hv
    simp [poolIds, poolMapOf, initFrameCache, alookup] at hv
  · intro j v hv
    simp [setIds, setMapOf, initFrameCache, alookup] at hv
  · intro j
    simp [poolIds, poolMapOf, initFrameCache, alookup]
  · intro j
    simp [setIds, setMapOf, initFrameCache, alookup]
  · intro i j v hne hv
    simp [poolIds, poolMapOf, initFrameCache, alookup] at hv
  · intro i j v hne hv
    simp [setIds, setMapOf, initFrameCache, alookup] at hv

/-- Witness for C2 with a concrete material and one interleaved request on
the other slot. -/
theorem getDescriptorSet_cache_identity_witness :
    (getDescriptorSet (runCalls (getDescriptorSet initFrameCache 0 3
          [(0, ⟨10, 0, 64⟩)] [(1, ⟨20, 21, 2⟩)]).2
          [⟨1, 3, [(0, ⟨10, 0, 64⟩)], [(1, ⟨20, 21, 2⟩)]⟩])
        0 3 [(0, ⟨10, 0, 64⟩)] [(1, ⟨20, 21, 2⟩)]).1
      = (getDescriptorSet initFrameCache 0 3 [(0, ⟨10, 0, 64⟩)] [(1, ⟨20, 21, 2⟩)]).1
    ∧ ¬ (getDescriptorSet (runCalls (getDescriptorSet initFrameCache 0 3
          [(0, ⟨10, 0, 64⟩)] [(1, ⟨20, 21, 2⟩)]).2
          [⟨1, 3, [(0, ⟨10, 0, 64⟩)], [(1, ⟨20, 21, 2⟩)]⟩])
        0 3 ([(0, ⟨10, 0, 64⟩)].set 0 (0, { (⟨10, 0, 64⟩ : VkDescriptorBufferInfo) with
            buffer := 99 })) [(1, ⟨20, 21, 2⟩)]).1
        = (getDescriptorSet initFrameCache 0 3 [(0, ⟨10, 0, 64⟩)] [(1, ⟨20, 21, 2⟩)]).1
    ∧ ¬ (getDescriptorSet (runCalls (getDescriptorSet initFrameCache 0 3
          [(0, ⟨10, 0, 64⟩)] [(1, ⟨20, 21, 2⟩)]).2
          [⟨1, 3, [(0, ⟨10, 0, 64⟩)], [(1, ⟨20, 21, 2⟩)]⟩])
        0 3 [(0, ⟨10, 0, 64⟩)] ([(1, ⟨20, 21, 2⟩)].set 0 (1,
          { (⟨20, 21, 2⟩ : VkDescriptorImageInfo) with imageView := 77 }))).1
        = (getDescriptorSet initFrameCache 0 3 [(0, ⟨10, 0, 64⟩)] [(1, ⟨20, 21, 2⟩)]).1 :=
  getDescriptorSet_cache_identity initFrameCache 0 3
    [(0, ⟨10, 0, 64⟩)] [(1, ⟨20, 21, 2⟩)]
    [⟨1, 3, [(0, ⟨10, 0, 64⟩)], [(1, ⟨20, 21, 2⟩)]⟩]
    0 0 ⟨10, 0, 64⟩ 99 0 1 ⟨20, 21, 2⟩ 77
    Inv_init (by decide) (by decide) (by decide) (by decide)

/-- Number of descriptor pools cached under one slot. -/
def poolCount (fr : FrameCache) (ci : Nat) : Nat := (poolIds fr ci).length

/-- Number of descriptor sets cached under one slot. -/
def setCount (fr : FrameCache) (ci : Nat) : Nat := (setIds fr ci).length

/-- The layout hash of the demo material of the end-to-end scenario. -/
def demoLayout : Nat := 7

/-- The buffer bindings of the demo material. -/
def demoBufferBindings : List (Nat × VkDescriptorBufferInfo) := [(0, ⟨3, 0, 64⟩)]

/-- The image bindings of the demo material. -/
def demoImageBindings : List (Nat × VkDescriptorImageInfo) := [(1, ⟨4, 5, 6⟩)]

/-- One logical frame rendered on the given slot with the demo material. -/
def drawFrameWith (fr : FrameCache) (slot : Nat) : FrameCache :=
  (getDescriptorSet fr slot demoLayout demoBufferBindings demoImageBindings).2

/-- Three logical frames over two slots (0, 1, 0), same material. -/
def c3Run : FrameCache :=
  drawFrameWith (drawFrameWith (drawFrameWith initFrameCache 0) 1) 0

/--
Claim C3: `getDescriptorPool` is lazily-creating and idempotent per slot:
from a state with no pool for the layout in the slot, the call creates and
caches exactly one pool (slot pool count rises by one, the layout now maps
to the returned pool) and an immediate repeat returns that same pool with
the state unchanged; from any state that already caches a pool `p` for the
layout in the slot, the call returns `p` and changes nothing; and in the
end-to-end scenario (two slots, three logical frames with one material)
exactly one pool and one set exist per slot — two of each in total, not
three or six.
-/
theorem getDescriptorPool_lazy_idempotent (fr : FrameCache) (ci layout : Nat)
    (fr2 : FrameCache) (ci2 layout2 p : Nat)
    (hnone : alookup (poolMapOf fr ci) layout = none)
    (hsome : alookup (poolMapOf fr2 ci2) layout2 = some p) :
    (poolCount (getDescriptorPool fr ci layout).2 ci = poolCount fr ci + 1
      ∧ alookup (poolMapOf (getDescriptorPool fr ci layout).2 ci) layout
          = some (getDescriptorPool fr ci layout).1
      ∧ getDescriptorPool (getDescriptorPool fr ci layout).2 ci layout
          = ((getDescriptorPool fr ci layout).1, (getDescriptorPool fr ci layout).2))
    ∧ getDescriptorPool fr2 ci2 layout2 = (p, fr2)
    ∧ (poolCount c3Run 0 = 1 ∧ poolCount c3Run 1 = 1
      ∧ setCount c3Run 0 = 1 ∧ setCount c3Run 1 = 1) := by
  have hmiss := getDescriptorPool_miss fr ci layout hnone
  have hlook : alookup (poolMapOf (getDescriptorPool fr ci layout).2 ci) layout
      = some (getDescriptorPool fr ci layout).1 := by
    rw [hmiss, poolMapOf_insertPool, if_pos rfl]
    exact alookup_cons_self _ _ _
  refine ⟨⟨?_, hlook, ?_⟩, ?_, ?_⟩
  · rw [hmiss]
    show (poolIds (insertPool fr ci layout) ci).length = (poolIds fr ci).length + 1
    rw [poolIds_insertPool, if_pos rfl, List.length_cons]
  · exact getDescriptorPool_cached _ ci layout _ hlook
  · exact getDescriptorPool_cached fr2 ci2 layout2 p hsome
  · refine ⟨?_, ?_, ?_, ?_⟩ <;> decide

/-- Witness for C3: a fresh frame for the miss branch, a frame that
already caches pool 0 for layout 7 in slot 0 for the hit branch. -/
theorem getDescriptorPool_lazy_idempotent_witness :
    (poolCount (getDescriptorPool initFrameCache 0 7).2 0 = poolCount initFrameCache 0 + 1
      ∧ alookup (poolMapOf (getDescriptorPool initFrameCache 0 7).2 0) 7
          = some (getDescriptorPool initFrameCache 0 7).1
      ∧ getDescriptorPool (getDescriptorPool initFrameCache 0 7).2 0 7
          = ((getDescriptorPool initFrameCache 0 7).1, (getDescriptorPool initFrameCache 0 7).2))
    ∧ getDescriptorPool ⟨1, [(0, [(7, 0)])], []⟩ 0 7 = (0, ⟨1, [(0, [(7, 0)])], []⟩)
    ∧ (poolCount c3Run 0 = 1 ∧ poolCount c3Run 1 = 1
      ∧ setCount c3Run 0 = 1 ∧ setCount c3Run 1 = 1) :=
  getDescriptorPool_lazy_idempotent initFrameCache 0 7 ⟨1, [(0, [(7, 0)])], []⟩ 0 7 0
    (by decide) (by decide)

/--
Claim C5: descriptor pools and sets are never shared across frame slots:
for distinct concurrency indices `i` and `j`, `getDescriptorPool` and
`getDescriptorSet` on slot `i` leave both of slot `j`'s caches unchanged,
and the object they return is not cached under slot `j`, neither before nor
after the call.
-/
theorem descriptor_caches_slot_disjoint (fr : FrameCache) (i j layout : Nat)
    (b : List (Nat × VkDescriptorBufferInfo)) (im : List (Nat × VkDescriptorImageInfo))
    (hinv : Inv fr) (hne : ¬ i = j) :
    poolMapOf (getDescriptorPool fr i layout).2 j = poolMapOf fr j
    ∧ setMapOf (getDescriptorPool fr i layout).2 j = setMapOf fr j
    ∧ ¬ (getDescriptorPool fr i layout).1 ∈ poolIds fr j
    ∧ ¬ (getDescriptorPool fr i layout).1 ∈ poolIds (getDescriptorPool fr i layout).2 j
    ∧ poolMapOf (getDescriptorSet fr i layout b im).2 j = poolMapOf fr j
    ∧ setMapOf (getDescriptorSet fr i layout b im).2 j = setMapOf fr j
    ∧ ¬ (getDescriptorSet fr i layout b im).1 ∈ setIds fr j
    ∧ ¬ (getDescriptorSet fr i layout b im).1 ∈ setIds (getDescriptorSet fr i layout b im).2 j := by
  have hji : ¬ j = i := fun he => hne he.symm
  have hpool : poolMapOf (getDescriptorPool fr i layout).2 j = poolMapOf fr j
      ∧ setMapOf (getDescriptorPool fr i layout).2 j = setMapOf fr j
      ∧ ¬ (getDescriptorPool fr i layout).1 ∈ poolIds fr j := by
    cases hl : alookup (poolMapOf fr i) layout with
    | some q =>
      rw [getDescriptorPool_cached fr i layout q hl]
      exact ⟨rfl, rfl,
        hinv.poolDisj i j q hne (List.mem_map_of_mem Prod.snd (alookup_mem hl))⟩
    | none =>
      rw [getDescriptorPool_miss fr i layout hl]
      refine ⟨?_, rfl, ?_⟩
      · rw [poolMapOf_insertPool, if_neg hji]
      · exact fun hmem => Nat.lt_irrefl _ (hinv.poolLt j _ hmem)
  have hset : poolMapOf (getDescriptorSet fr i layout b im).2 j = poolMapOf fr j
      ∧ setMapOf (getDescriptorSet fr i layout b im).2 j = setMapOf fr j
      ∧ ¬ (getDescriptorSet fr i layout b im).1 ∈ setIds fr j := by
    cases hs : alookup (setMapOf fr i) (setKeyOf layout b im) with
    | some s =>
      rw [getDescriptorSet_cached fr i layout b im s hs]
      exact ⟨rfl, rfl,
        hinv.setDisj i j s hne (List.mem_map_of_mem Prod.snd (alookup_mem hs))⟩
    | none =>
      rw [getDescriptorSet_miss fr i layout b im hs]
      refine ⟨?_, ?_, ?_⟩
      · rw [poolMapOf_insertSet, getDescriptorPool_poolMapOf_ne fr i layout j hji]
      · rw [setMapOf_insertSet, if_neg hji, getDescriptorPool_setMapOf]
      · intro hmem
        exact Nat.lt_irrefl _ (Nat.lt_of_lt_of_le (hinv.setLt j _ hmem)
          (getDescriptorPool_nextObj_ge fr i layout))
  have hpid : poolIds (getDescriptorPool fr i layout).2 j = poolIds fr j := by
    show (poolMapOf (getDescriptorPool fr i layout).2 j).map Prod.snd
      = (poolMapOf fr j).map Prod.snd
    rw [hpool.1]
  have hsid : setIds (getDescriptorSet fr i layout b im).2 j = setIds fr j := by
    show (setMapOf (getDescriptorSet fr i layout b im).2 j).map Prod.snd
      = (setMapOf fr j).map Prod.snd
    rw [hset.2.1]
  refine ⟨hpool.1, hpool.2.1, hpool.2.2, ?_, hset.1, hset.2.1, hset.2.2, ?_⟩
  · rw [hpid]
    exact hpool.2.2
  · rw [hsid]
    exact hset.2.2

/-- Witness for C5 at a fresh frame and slots 0, 1. -/
theorem descriptor_caches_slot_disjoint_witness :
    poolMapOf (getDescriptorPool initFrameCache 0 7).2 1 = poolMapOf initFrameCache 1
    ∧ setMapOf (getDescriptorPool initFrameCache 0 7).2 1 = setMapOf initFrameCache 1
    ∧ ¬ (getDescriptorPool initFrameCache 0 7).1 ∈ poolIds initFrameCache 1
    ∧ ¬ (getDescriptorPool initFrameCache 0 7).1
        ∈ poolIds (getDescriptorPool initFrameCache 0 7).2 1
    ∧ poolMapOf (getDescriptorSet initFrameCache 0 7 demoBufferBindings
        demoImageBindings).2 1 = poolMapOf initFrameCache 1
    ∧ setMapOf (getDescriptorSet initFrameCache 0 7 demoBufferBindings
        demoImageBindings).2 1 = setMapOf initFrameCache 1
    ∧ ¬ (getDescriptorSet initFrameCache 0 7 demoBufferBindings demoImageBindings).1
        ∈ setIds initFrameCache 1
    ∧ ¬ (getDescriptorSet initFrameCache 0 7 demoBufferBindings demoImageBindings).1
        ∈ setIds (getDescriptorSet initFrameCache 0 7 demoBufferBindings
            demoImageBindings).2 1 :=
  descriptor_caches_slot_disjoint initFrameCache 0 1 7 demoBufferBindings
    demoImageBindings Inv_init (by decide)

/-- One resource-releasing step of `Frame::~Frame` (Frame.cpp lines 55-71),
in the order the destructor performs them. -/
inductive TeardownEvent where
  | releaseSet : Nat → TeardownEvent
  | releasePool : Nat → TeardownEvent
  | destroyFence : TeardownEvent
  | destroyRenderFinishedSemaphore : TeardownEvent
  | destroyImageAvailableSemaphore : TeardownEvent
  | destroyCommandPool : TeardownEvent
deriving DecidableEq, Repr

/-- The descriptor-set releases of the destructor's first loop. -/
def setPart (fr : FrameCache) : List TeardownEvent :=
  (fr.descriptorSets.map (fun m => m.2.map (fun p => TeardownEvent.releaseSet p.2))).flatten

/-- The descriptor-pool releases of the destructor's second loop. -/
def poolPart (fr : FrameCache) : List TeardownEvent :=
  (fr.descriptorPools.map (fun m => m.2.map (fun p => TeardownEvent.releasePool p.2))).flatten

/-- The trailing fixed destructions: fence, render-finished semaphore,
image-available semaphore, command pool, in source order. -/
def syncPart : List TeardownEvent :=
  [TeardownEvent.destroyFence, TeardownEvent.destroyRenderFinishedSemaphore,
    TeardownEvent.destroyImageAvailableSemaphore, TeardownEvent.destroyCommandPool]

/-- `Frame::~Frame` as the ordered list of resource releases it performs:
all cached descriptor sets, then all cached descriptor pools, then the
fence, the two semaphores and the command pool. -/
def frameTeardown (fr : FrameCache) : List TeardownEvent :=
  setPart fr ++ poolPart fr ++ syncPart

lemma mem_setPart {fr : FrameCache} {e : TeardownEvent} (he : e ∈ setPart fr) :
    ∃ a, e = TeardownEvent.releaseSet a := by
  simp only [setPart, List.mem_flatten, List.mem_map] at he
  obtain ⟨l, ⟨m, _, rfl⟩, hel⟩ := he
  obtain ⟨q, _, rfl⟩ := List.mem_map.mp hel
  exact ⟨q.2, rfl⟩

lemma mem_poolPart {fr : FrameCache} {e : TeardownEvent} (he : e ∈ poolPart fr) :
    ∃ a, e = TeardownEvent.releasePool a := by
  simp only [poolPart, List.mem_flatten, List.mem_map] at he
  obtain ⟨l, ⟨m, _, rfl⟩, hel⟩ := he
  obtain ⟨q, _, rfl⟩ := List.mem_map.mp hel
  exact ⟨q.2, rfl⟩

lemma pos_lt_of_tail_shape {α : Type} (P : α → Prop) (l1 l2 : List α) (idx : Nat) (e : α)
    (h : (l1 ++ l2)[idx]? = some e) (hall : ∀ x ∈ l2, P x) (hne : ¬ P e) :
    idx < l1.length := by
  by_cases hlt : idx < l1.length
  · exact hlt
  · exfalso
    rw [List.getElem?_append_right (Nat.not_lt.mp hlt)] at h
    exact hne (hall e (List.getElem?_mem h))

lemma pos_ge_of_head_shape {α : Type} (P : α → Prop) (l1 l2 : List α) (idx : Nat) (e : α)
    (h : (l1 ++ l2)[idx]? = some e) (hall : ∀ x ∈ l1, P x) (hne : ¬ P e) :
    l1.length ≤ idx := by
  by_cases hlt : idx < l1.length
  · exfalso
    rw [List.getElem?_append_left hlt] at h
    exact hne (hall e (List.getElem?_mem h))
  · exact Nat.not_lt.mp hlt

/--
Claim C6: frame teardown performs its destructions in dependency order:
every cached descriptor-set release precedes every cached descriptor-pool
release, and both precede the destruction of the fence, the two semaphores
and the command pool.
-/
theorem teardown_dependency_order (fr : FrameCache) (i j k a b : Nat)
    (e : TeardownEvent)
    (hi : (frameTeardown fr)[i]? = some (TeardownEvent.releaseSet a))
    (hj : (frameTeardown fr)[j]? = some (TeardownEvent.releasePool b))
    (hk : (frameTeardown fr)[k]? = some e)
    (he : e = TeardownEvent.destroyFence
      ∨ e = TeardownEvent.destroyRenderFinishedSemaphore
      ∨ e = TeardownEvent.destroyImageAvailableSemaphore
      ∨ e = TeardownEvent.destroyCommandPool) :
    i < j ∧ j < k ∧ i < k := by
  have hassoc : frameTeardown fr = setPart fr ++ (poolPart fr ++ syncPart) := by
    rw [frameTeardown, List.append_assoc]
  have hi2 := hassoc ▸ hi
  have hj2 := hassoc ▸ hj
  have hiset : i < (setPart fr).length := by
    refine pos_lt_of_tail_shape
      (fun x => ∀ c, ¬ x = TeardownEvent.releaseSet c) _ _ i _ hi2 ?_ ?_
    · intro x hx
      rcases List.mem_append.mp hx with hx1 | hx2
      · obtain ⟨c, rfl⟩ := mem_poolPart hx1
        intro c2 hc
        cases hc
      · intro c2 hc
        rw [hc] at hx2
        simp [syncPart] at hx2
    · intro hP
      exact hP a rfl
  have hjge : (setPart fr).length ≤ j := by
    refine pos_ge_of_head_shape
      (fun x => ∀ c, ¬ x = TeardownEvent.releasePool c) _ _ j _ hj2 ?_ ?_
    · intro x hx
      obtain ⟨c, rfl⟩ := mem_setPart hx
      intro c2 hc
      cases hc
    · intro hP
      exact hP b rfl
  have hjlt : j < (setPart fr ++ poolPart fr).length := by
    refine pos_lt_of_tail_shape
      (fun x => ∀ c, ¬ x = TeardownEvent.releasePool c) _ _ j _ hj ?_ ?_
    · intro x hx
      intro c2 hc
      rw [hc] at hx
      simp [syncPart] at hx
    · intro hP
      exact hP b rfl
  have hkge : (setPart fr ++ poolPart fr).length ≤ k := by
    refine pos_ge_of_head_shape
      (fun x => x = TeardownEvent.destroyFence
        ∨ x = TeardownEvent.destroyRenderFinishedSemaphore
        ∨ x = TeardownEvent.destroyImageAvailableSemaphore
        ∨ x = TeardownEvent.destroyCommandPool → False) _ _ k _ hk ?_ ?_
    · intro x hx hor
      rcases List.mem_append.mp hx with hx1 | hx2
      · obtain ⟨c, rfl⟩ := mem_setPart hx1
        rcases hor with hc | hc | hc | hc <;> cases hc
      · obtain ⟨c, rfl⟩ := mem_poolPart hx2
        rcases hor with hc | hc | hc | hc <;> cases hc
    · intro hP
      exact hP he
  have h1 : i < j := Nat.lt_of_lt_of_le hiset hjge
  have h2 : j < k := Nat.lt_of_lt_of_le hjlt hkge
  exact ⟨h1, h2, Nat.lt_trans h1 h2⟩

/-- Witness for C6 at a frame caching one pool and one set in slot 0. -/
theorem teardown_dependency_order_witness : (0 : Nat) < 1 ∧ (1 : Nat) < 2 ∧ (0 : Nat) < 2 :=
  teardown_dependency_order ⟨2, [(0, [(7, 0)])], [(0, [(⟨7, [⟨3, 0, 64⟩], []⟩, 1)])]⟩
    0 1 2 1 0 TeardownEvent.destroyFence (by decide) (by decide) (by decide) (Or.inl rfl)

/-- Bit constant from vulkan_core.h. -/
def VK_FENCE_CREATE_SIGNALED_BIT : Nat := 1

/-- The fence create flags used by the `Frame` constructor
(Frame.cpp line 33): `VK_FENCE_CREATE_SIGNALED_BIT`. -/
def constructorFenceCreateFlags : Nat := VK_FENCE_CREATE_SIGNALED_BIT

/-- Modelled Vulkan semantics: `vkCreateFence` creates the fence in the
signaled state iff the create flags contain the signaled bit. -/
def createdFenceSignaled (flags : Nat) : Bool :=
  decide (flags &&& VK_FENCE_CREATE_SIGNALED_BIT ≠ 0)

/-- Modelled Vulkan semantics: `vkWaitForFences` blocks iff the fence is
unsignaled; on a signaled fence it returns immediately. -/
def fenceWaitBlocks (signaled : Bool) : Bool := !signaled

/--
Claim C9: a freshly constructed `Frame`'s completion fence is created in
the signaled state — the constructor's fence create flags include the
signaled bit — so the first wait on that slot's fence returns immediately
instead of blocking forever.
-/
theorem fence_created_signaled :
    constructorFenceCreateFlags &&& VK_FENCE_CREATE_SIGNALED_BIT ≠ 0
    ∧ createdFenceSignaled constructorFenceCreateFlags = true
    ∧ fenceWaitBlocks (createdFenceSignaled constructorFenceCreateFlags) = false := by
  decide

/-- The Vulkan handles owned by one `Frame` (Frame.h), as `Nat` with 0 for
`VK_NULL_HANDLE`. -/
structure FrameHandles where
  commandPool : Nat
  commandBuffer : Nat
  fence : Nat
  imageAvailableSemaphore : Nat
  renderFinishedSemaphore : Nat
  device : Nat
deriving DecidableEq, Repr

/-- `VK_NULL_HANDLE`. -/
def VK_NULL_HANDLE : Nat := 0

/-- `Frame::Frame(Frame &&)` (Frame.cpp lines 40-53): the new frame copies
every handle from `other`, then `other`'s command pool, command buffer,
fence and both semaphores are set to `VK_NULL_HANDLE` (the device handle is
copied but not nulled; it is not an owned resource). Result:
(new frame, moved-from frame). -/
def frameMoveConstruct (other : FrameHandles) : FrameHandles × FrameHandles :=
  (⟨other.commandPool, other.commandBuffer, other.fence,
      other.imageAvailableSemaphore, other.renderFinishedSemaphore, other.device⟩,
    ⟨VK_NULL_HANDLE, VK_NULL_HANDLE, VK_NULL_HANDLE, VK_NULL_HANDLE, VK_NULL_HANDLE,
      other.device⟩)

/-- The handles actually destroyed by `Frame::~Frame` (Frame.cpp lines
67-70): vkDestroyFence, vkDestroySemaphore (render-finished then
image-available), vkDestroyCommandPool; destroying `VK_NULL_HANDLE` is a
no-op per the Vulkan specification, so null handles destroy nothing. The
command buffer is freed with its pool, never destroyed directly. -/
def destructorDestroyedHandles (f : FrameHandles) : List Nat :=
  [f.fence, f.renderFinishedSemaphore, f.imageAvailableSemaphore, f.commandPool].filter
    (fun h => !(h == VK_NULL_HANDLE))

/--
Claim C10: frame move-construction transfers ownership without
double-destruction: the moved-from frame's command pool, command buffer,
fence and both semaphore handles are all null, so destroying the moved-from
frame destroys none of the resources now owned by the new frame (which
holds exactly the original handles).
-/
theorem move_construct_no_double_destruction (other : FrameHandles) :
    (frameMoveConstruct other).2.commandPool = VK_NULL_HANDLE
    ∧ (frameMoveConstruct other).2.commandBuffer = VK_NULL_HANDLE
    ∧ (frameMoveConstruct other).2.fence = VK_NULL_HANDLE
    ∧ (frameMoveConstruct other).2.imageAvailableSemaphore = VK_NULL_HANDLE
    ∧ (frameMoveConstruct other).2.renderFinishedSemaphore = VK_NULL_HANDLE
    ∧ destructorDestroyedHandles (frameMoveConstruct other).2 = []
    ∧ (frameMoveConstruct other).1.commandPool = other.commandPool
    ∧ (frameMoveConstruct other).1.commandBuffer = other.commandBuffer
    ∧ (frameMoveConstruct other).1.fence = other.fence
    ∧ (frameMoveConstruct other).1.imageAvailableSemaphore = other.imageAvailableSemaphore
    ∧ (frameMoveConstruct other).1.renderFinishedSemaphore = other.renderFinishedSemaphore :=
  ⟨rfl, rfl, rfl, rfl, rfl, rfl, rfl, rfl, rfl, rfl, rfl⟩

end Frame

namespace Material

/-- Round `offset` up to the next multiple of `align`. -/
def alignUp (offset align : Nat) : Nat := ((offset + align - 1) / align) * align

/-- Byte offsets of consecutive struct fields given (size, alignment)
pairs, following the C++ layout rule: each field starts at the next
multiple of its alignment after the previous field ends. -/
def layoutOffsets (offset : Nat) : List (Nat × Nat) → List Nat
  | [] => []
  | f :: rest => alignUp offset f.2 :: layoutOffsets (alignUp offset f.2 + f.1) rest

/-- `Material::Parameters` (Material.h lines 59-66): `glm::vec3 ambient;
float pad1; glm::vec3 diffuse; float pad2; glm::vec4 specularAndShininess`.
A glm vector of N floats has size 4N and alignment 4; float has size and
alignment 4. -/
def MaterialParametersFields : List (Nat × Nat) :=
  [(12, 4), (4, 4), (12, 4), (4, 4), (16, 4)]

/-- The field offsets of `Material::Parameters`. -/
def MaterialParametersOffsets : List Nat := layoutOffsets 0 MaterialParametersFields

/-- Modelled from the spec: the paired fragment shader's uniform block is
not under src/; per the spec it holds the three vector fields (ambient,
diffuse, specularAndShininess) with 16-byte-aligned vector fields as the
shader's std140 uniform block expects: vec3 has size 12 and alignment 16,
vec4 has size 16 and alignment 16. -/
def shaderUniformBlockFields : List (Nat × Nat) := [(12, 16), (12, 16), (16, 16)]

/-- The field offsets of the shader's uniform block. -/
def shaderUniformBlockOffsets : List Nat := layoutOffsets 0 shaderUniformBlockFields

/--
Claim C8: the explicit padding fields of `Material::Parameters` place
ambient at offset 0, diffuse at offset 16 and specularAndShininess at
offset 32 — each 16-byte aligned — and these three vector offsets coincide
with the offsets the paired shader's std140 uniform block expects for the
same field order.
-/
theorem parameters_layout_offsets :
    MaterialParametersOffsets = [0, 12, 16, 28, 32]
    ∧ MaterialParametersOffsets[0]? = some 0
    ∧ MaterialParametersOffsets[2]? = some 16
    ∧ MaterialParametersOffsets[4]? = some 32
    ∧ shaderUniformBlockOffsets = [0, 16, 32]
    ∧ (0 : Nat) % 16 = 0 ∧ (16 : Nat) % 16 = 0 ∧ (32 : Nat) % 16 = 0 := by
  decide

end Material
